import Mathlib

/-!
Verification of the V.A.L.O. photo-editor core: a shallow embedding of
`src/backend/main.py` (pixel operators and the rendering pipeline) and of the
session/history state machine of `src/frontend/operation.py`, with theorems
settling the specification claims.

Modelling conventions:
* numpy `uint8` samples are natural numbers; byte range is tracked by the
  `Image.Bytes` predicate.
* float32 arithmetic of the source is modelled by exact rational arithmetic.
  Every claim that depends on numeric values only exercises inputs on which
  the float and the exact computation agree (for example, dividing a byte by
  255 and multiplying back is exact in IEEE float32 round-to-nearest, so the
  brightness stage at value 0 is the identity in both models).
* OpenCV neighborhood filters (GaussianBlur, medianBlur, addWeighted) are an
  external library, not code of this repository; they enter the model as
  parameters (`CVKernels`), and theorems needing facts about them (only shape
  preservation) take those facts as hypotheses.
-/

namespace Valo

/-- Truncation toward zero after clamping to the byte range, modelling
`np.clip(x, 0, 255).astype(np.uint8)` (values are nonnegative after the clip,
so truncation is the floor; `Rat.floor` is the executable floor on ℚ). -/
def byteSat (q : ℚ) : ℕ := (Rat.floor (min 255 (max 0 q))).toNat

/-- Round to nearest with ties to even (OpenCV's `cvRound`). -/
def rne (q : ℚ) : ℤ :=
  if q - Rat.floor q < 1/2 then Rat.floor q
  else if 1/2 < q - Rat.floor q then Rat.floor q + 1
  else if Rat.floor q % 2 = 0 then Rat.floor q else Rat.floor q + 1

/-- A row-major pixel grid: a list of rows, each row a list of pixels, each
pixel a list of channel samples (a numpy array of shape H x W x C). -/
structure Image where
  pixels : List (List (List ℕ))
deriving DecidableEq, Repr, Inhabited

def Image.height (img : Image) : ℕ := img.pixels.length

def Image.width (img : Image) : ℕ := (img.pixels.headD []).length

/-- Channel count: the length of the first pixel (`img.shape[2]`). -/
def Image.chan (img : Image) : ℕ := ((img.pixels.headD []).headD []).length

/-- Row-length profile, one entry per row. -/
def Image.shape (img : Image) : List ℕ := img.pixels.map List.length

/-- Every row has length `width` (numpy arrays are rectangular). -/
def Image.Rectangular (img : Image) : Prop :=
  ∀ row ∈ img.pixels, row.length = img.width

/-- Every channel sample fits in a byte. -/
def Image.Bytes (img : Image) : Prop :=
  ∀ row ∈ img.pixels, ∀ px ∈ row, ∀ v ∈ px, v ≤ 255

/-- Every pixel has exactly `c` channels. -/
def Image.Channels (img : Image) (c : ℕ) : Prop :=
  ∀ row ∈ img.pixels, ∀ px ∈ row, px.length = c

instance (img : Image) : Decidable img.Bytes := by
  unfold Image.Bytes; infer_instance

instance (img : Image) : Decidable img.Rectangular := by
  unfold Image.Rectangular; infer_instance

instance (img : Image) (c : ℕ) : Decidable (img.Channels c) := by
  unfold Image.Channels; infer_instance

/-- Apply a function to every pixel. -/
def Image.mapPixels (f : List ℕ → List ℕ) (img : Image) : Image :=
  ⟨img.pixels.map fun row => row.map f⟩

/-- Apply a function to every channel sample. -/
def Image.mapSamples (f : ℕ → ℕ) (img : Image) : Image :=
  img.mapPixels (List.map f)

/-- The OpenCV primitives the operators call; OpenCV is outside this
repository, so these are parameters of the model. -/
structure CVKernels where
  /-- `cv2.GaussianBlur(img, (0, 0), sigmaX=1.0)` -/
  gaussianBlurSigma : Image → Image
  /-- `cv2.GaussianBlur(img, (k, k), 0)` -/
  gaussianBlurK : ℕ → Image → Image
  /-- `cv2.medianBlur(img, k)` -/
  medianBlurK : ℕ → Image → Image
  /-- `cv2.addWeighted(src1, a, src2, b, c)` -/
  addWeighted : Image → ℚ → Image → ℚ → ℚ → Image
  /-- scalar luma of `cv2.cvtColor(., COLOR_BGR2GRAY)` at one (b, g, r) pixel -/
  lumaBGR : ℕ → ℕ → ℕ → ℕ

/-- Pixel map of the brightening branch of `apply_brightness`:
`np.clip(x/255 * (1 + v/100), 0, 1) * 255`, truncated back to uint8.  For
`v = 0` this agrees exactly with the float32 computation of the source. -/
def brightenPix (v : ℤ) (x : ℕ) : ℕ :=
  (Rat.floor (min 1 (max 0 ((x : ℚ) / 255 * (1 + (v : ℚ) / 100))) * 255)).toNat

/-- Pixel map of the darkening branch `(x/255) ** gamma` rescaled to uint8,
with `gamma = m/100` and `m = 100 + (-v) ∈ [101, 200]`.  The exact value
`⌊255 * (x/255)^(m/100)⌋ = ⌊(x^m / 255^(m-100))^(1/100)⌋` is the greatest
`t ≤ 255` with `t^100 * 255^(m-100) ≤ x^m` (an exact-real idealization of the
float32 power; no claim exercises this branch). -/
def darkenPix (m x : ℕ) : ℕ :=
  Nat.findGreatest (fun t => t ^ 100 * 255 ^ (m - 100) ≤ x ^ m) 255

/-- `apply_brightness` (src/backend/main.py lines 4-18). -/
def apply_brightness (img : Image) (value : ℤ) : Image :=
  let v := max (-100) (min 100 value)
  if 0 ≤ v then img.mapSamples (brightenPix v)
  else img.mapSamples (darkenPix (100 + (-v)).toNat)

/-- `apply_sharpness` (src/backend/main.py lines 21-36). -/
def apply_sharpness (cv : CVKernels) (img : Image) (value : ℤ) : Image :=
  let v := max (-100) (min 100 value)
  if v = 0 then img
  else
    let blur := cv.gaussianBlurSigma img
    if 0 < v then cv.addWeighted img (1 + (v : ℚ) / 100) blur (-((v : ℚ) / 100)) 0
    else cv.addWeighted img (1 - ((|v| : ℤ) : ℚ) / 100) blur (((|v| : ℤ) : ℚ) / 100) 0

/-- Odd kernel size `max(1, (value // 10) * 2 + 1)` shared by blur and
denoise (python `//` is floor division, hence `Int.fdiv`). -/
def oddKernel (v : ℤ) : ℕ := (max 1 (Int.fdiv v 10 * 2 + 1)).toNat

/-- `apply_blur` (src/backend/main.py lines 39-43). -/
def apply_blur (cv : CVKernels) (img : Image) (value : ℤ) : Image :=
  if value ≤ 0 then img else cv.gaussianBlurK (oddKernel value) img

/-- `apply_noise_reduction` (src/backend/main.py lines 45-49). -/
def apply_noise_reduction (cv : CVKernels) (img : Image) (value : ℤ) : Image :=
  if value ≤ 0 then img else cv.medianBlurK (oddKernel value) img

/-- Scale factor of `apply_rgb` for channel `j` (BGR order: 0 = blue,
1 = green, 2 = red); any further channel passes through unscaled. -/
def rgbFactor (r g b : ℤ) (j : ℕ) : ℚ :=
  if j = 2 then 1 + (r : ℚ) / 100
  else if j = 1 then 1 + (g : ℚ) / 100
  else if j = 0 then 1 + (b : ℚ) / 100
  else 1

/-- `apply_rgb` (src/backend/main.py lines 51-60): channels scaled in float
precision, then the whole buffer clipped to [0, 255] and cast to uint8. -/
def apply_rgb (img : Image) (r g b : ℤ) : Image :=
  img.mapPixels fun px => px.mapIdx fun j (x : ℕ) => byteSat ((x : ℚ) * rgbFactor r g b j)

/-- `apply_grayscale` (src/backend/main.py lines 62-64): cvtColor BGR2GRAY
followed by GRAY2BGR (replicating the luma across three channels). -/
def apply_grayscale (cv : CVKernels) (img : Image) : Image :=
  img.mapPixels fun px =>
    let y := cv.lumaBGR (px.getD 0 0) (px.getD 1 0) (px.getD 2 0)
    [y, y, y]

/-- Pointwise model of `cv2.convertScaleAbs`: saturate(round(|a*x + b|)). -/
def csaPix (a b : ℚ) (x : ℕ) : ℕ := (min 255 (rne |a * (x : ℚ) + b|)).toNat

/-- `apply_preset` (src/backend/main.py lines 66-87).  The warm/cool branches
split into b, g, r planes, rescale two of them with `convertScaleAbs` and
merge back to three channels; noir is luma + a contrast push. -/
def apply_preset (cv : CVKernels) (img : Image) (preset : String) : Image :=
  if preset = "dramatic-warm" then
    let i := img.mapSamples (csaPix (115/100) 5)
    i.mapPixels fun px =>
      [csaPix (92/100) 0 (px.getD 0 0), px.getD 1 0, csaPix (110/100) 0 (px.getD 2 0)]
  else if preset = "dramatic-cool" then
    let i := img.mapSamples (csaPix (115/100) 5)
    i.mapPixels fun px =>
      [csaPix (110/100) 0 (px.getD 0 0), px.getD 1 0, csaPix (92/100) 0 (px.getD 2 0)]
  else if preset = "noir" then
    img.mapPixels fun px =>
      let y := csaPix (13/10) (-10) (cv.lumaBGR (px.getD 0 0) (px.getD 1 0) (px.getD 2 0))
      [y, y, y]
  else img

/-- A pixel-space rectangle (x, y, w, h). -/
structure PxRect where
  x : ℤ
  y : ℤ
  w : ℤ
  h : ℤ
deriving DecidableEq, Repr, Inhabited

/-- The rectangle lies fully inside a W x H frame. -/
def PxRect.InFrame (r : PxRect) (W H : ℕ) : Prop :=
  0 ≤ r.x ∧ 0 ≤ r.y ∧ r.x + r.w ≤ (W : ℤ) ∧ r.y + r.h ≤ (H : ℤ)

instance (r : PxRect) (W H : ℕ) : Decidable (r.InFrame W H) := by
  unfold PxRect.InFrame; infer_instance

/-- The GrabCut seeding rectangle computed by `remove_background`
(src/backend/main.py lines 97-107): `(pad, pad, max(1, w - 2*pad),
max(1, h - 2*pad))`; the offsets are not clamped. -/
def removeBgRect (w h : ℕ) (rect_pad : ℤ) : PxRect :=
  ⟨rect_pad, rect_pad, max 1 ((w : ℤ) - 2 * rect_pad), max 1 ((h : ℤ) - 2 * rect_pad)⟩

/-- `np.clip(q, 0, 1)`. -/
def clip01 (q : ℚ) : ℚ := min 1 (max 0 q)

/-- A normalized crop rectangle (the `crop` dict of the source). -/
structure CropRect where
  enabled : Bool
  x : ℚ
  y : ℚ
  w : ℚ
  h : ℚ
deriving DecidableEq, Repr, Inhabited

/-- Pixel rectangle of the crop operator (src/backend/main.py lines 154-161):
origin `int(clip * size)` (truncation = floor, the operand is nonnegative),
size floored likewise then forced to at least 1 and capped at the remaining
frame past the origin.  The origin itself is never adjusted. -/
def cropRectPx (W H : ℕ) (c : CropRect) : PxRect :=
  let x := Rat.floor (clip01 c.x * W)
  let y := Rat.floor (clip01 c.y * H)
  let cw := Rat.floor (clip01 c.w * W)
  let ch := Rat.floor (clip01 c.h * H)
  ⟨x, y, max 1 (min cw ((W : ℤ) - x)), max 1 (min ch ((H : ℤ) - y))⟩

/-- numpy slice `img[y:y+ch, x:x+cw]`. -/
def cropCore (img : Image) (c : CropRect) : Image :=
  let r := cropRectPx img.width img.height c
  ⟨((img.pixels.drop r.y.toNat).take r.h.toNat).map
      fun row => (row.drop r.x.toNat).take r.w.toNat⟩

/-- `apply_crop` (src/backend/main.py lines 145-163): a missing or disabled
crop dict is the identity. -/
def apply_crop (img : Image) (crop : Option CropRect) : Image :=
  match crop with
  | Option.none => img
  | some c => if c.enabled then cropCore img c else img

/-- `apply_crop_local` (src/frontend/operation.py lines 82-96): the same
arithmetic as `apply_crop` on a present dict, plus a None-image guard and a
defensive copy that have no effect in the value model. -/
def apply_crop_local (img : Image) (c : CropRect) : Image :=
  if c.enabled then cropCore img c else img

/-- `apply_crop_local` applied to a 2D (H x W) alpha plane, as in
`_apply_crop`; `shape[:2]` of a 2D array is (rows, row length). -/
def crop_plane (p : List (List ℕ)) (c : CropRect) : List (List ℕ) :=
  if c.enabled then
    let r := cropRectPx (p.headD []).length p.length c
    ((p.drop r.y.toNat).take r.h.toNat).map
      fun row => (row.drop r.x.toNat).take r.w.toNat
  else p

/-- The parameter dict handed to `process_image`, with the `dict.get`
defaults made explicit.  The frontend dict carries no "blur" key, so `blur`
is 0 on every frontend call. -/
structure BackendParams where
  brightness : ℤ := 0
  sharpness : ℤ := 0
  denoise : ℤ := 0
  blur : ℤ := 0
  preset : String := "none"
  red : ℤ := 0
  green : ℤ := 0
  blue : ℤ := 0
  crop : Option CropRect := Option.none
deriving DecidableEq, Repr, Inhabited

/-- The stages of `process_image` before the channel-balance stage: tone →
sharpness → denoise → blur → (grayscale if "mono", preset transform for any
other preset besides "none").  This prefix never reads red/green/blue. -/
def preRGBStages (cv : CVKernels) (img : Image) (p : BackendParams) : Image :=
  let i1 := apply_brightness img p.brightness
  let i2 := apply_sharpness cv i1 p.sharpness
  let i3 := apply_noise_reduction cv i2 p.denoise
  let i4 := apply_blur cv i3 p.blur
  if p.preset ≠ "none" then
    if p.preset = "mono" then apply_grayscale cv i4 else apply_preset cv i4 p.preset
  else i4

/-- The condition under which `process_image` runs `apply_rgb`:
`preset in ("none", "dramatic-warm", "dramatic-cool")`. -/
def presetUsesRGB (preset : String) : Bool :=
  preset = "none" || preset = "dramatic-warm" || preset = "dramatic-cool"

/-- `process_image` (src/backend/main.py lines 165-187). -/
def process_image (cv : CVKernels) (img : Image) (p : BackendParams) : Image :=
  let i5 := preRGBStages cv img p
  let i6 := if presetUsesRGB p.preset then apply_rgb i5 p.red p.green p.blue else i5
  apply_crop i6 p.crop

/-- The default crop dict `{"enabled": False, "x": 0, "y": 0, "w": 1, "h": 1}`. -/
def defaultCrop : CropRect := ⟨false, 0, 0, 1, 1⟩

/-- The `UIParams` dataclass (src/frontend/operation.py lines 15-27), with
the source's field defaults. -/
structure UIParams where
  brightness : ℤ := 0
  sharpness : ℤ := 0
  denoise : ℤ := 0
  red : ℤ := 0
  green : ℤ := 0
  blue : ℤ := 0
  mono : Bool := false
  preset : String := "none"
  crop_ratio : String := "Original"
  crop : CropRect := defaultCrop
deriving DecidableEq, Repr, Inhabited

/-- `asdict(self.params)` as read by `process_image`, with the crop entry
chosen by the caller (the live preview overrides it with None); the dict has
no "blur" key, so blur defaults to 0. -/
def UIParams.toBackend (p : UIParams) (crop : Option CropRect) : BackendParams :=
  { brightness := p.brightness, sharpness := p.sharpness, denoise := p.denoise,
    blur := 0, preset := p.preset, red := p.red, green := p.green, blue := p.blue,
    crop := crop }

/-- The `HistoryState` dataclass (src/frontend/operation.py lines 33-36);
`params` is stored as a dict of all `UIParams` fields and restored through
the same fields, so the model keeps it as a `UIParams` value. -/
structure HistoryState where
  base_idx : ℤ
  params : UIParams
deriving DecidableEq, Repr, Inhabited

/-- `split_bgra` (src/frontend/operation.py lines 70-73): a 4-channel image
splits into its first three channels plus its alpha plane. -/
def split_bgra (img : Image) : Image × Option (List (List ℕ)) :=
  if img.chan = 4 then
    (⟨img.pixels.map fun row => row.map fun px => px.take 3⟩,
     some (img.pixels.map fun row => row.map fun px => px.getD 3 0))
  else (img, Option.none)

/-- `merge_bgra` (src/frontend/operation.py lines 76-79): merge the first
three channels with the alpha plane (cv2.merge requires equal shapes; the
zip truncates outside that contract). -/
def merge_bgra (bgr : Image) (alpha : Option (List (List ℕ))) : Image :=
  match alpha with
  | Option.none => bgr
  | some a =>
    ⟨(bgr.pixels.zip a).map fun ra =>
        (ra.1.zip ra.2).map fun pa => [pa.1.getD 0 0, pa.1.getD 1 0, pa.1.getD 2 0, pa.2]⟩

/-- The channel-3 plane of an image. -/
def alphaPlane (img : Image) : List (List ℕ) :=
  img.pixels.map fun row => row.map fun px => px.getD 3 0

/-- Python list indexing: nonnegative indices from the front, negative
indices from the back; `none` models an IndexError. -/
def pyGet {α : Type} (l : List α) (i : ℤ) : Option α :=
  if 0 ≤ i ∧ i < (l.length : ℤ) then l.get? i.toNat
  else if -(l.length : ℤ) ≤ i ∧ i < 0 then l.get? ((l.length : ℤ) + i).toNat
  else Option.none

/-- Python slice `l[:k]` (a negative stop counts from the end). -/
def pySliceTo {α : Type} (l : List α) (k : ℤ) : List α :=
  if 0 ≤ k then l.take k.toNat else l.take ((l.length : ℤ) + k).toNat

/-- The session state of `OperationWindow`: exactly the fields that carry
editing state (widget geometry, pixmaps and button styling are presentation
concerns outside the model). -/
structure Session where
  base_images : List Image
  base_idx : ℤ
  params : UIParams
  history : List HistoryState
  hist_idx : ℤ
  suspend_history : Bool
  remove_running : Bool
  remove_cancelled : Bool
  remove_preview : Option Image
  remove_dirty : Bool
  crop_dirty : Bool
  remove_status : String
  current_tab : String
deriving DecidableEq, Repr, Inhabited

/-- `_push_history` (src/frontend/operation.py lines 941-960).  The python
code indexes `self._history[self._hist_idx]` only when the list is
non-empty; `pyGet ... = some st` is exactly "the list is non-empty, the
cursor is in python's index range, and the entry equals the new snapshot".
(With a non-empty list and a cursor outside python's range the source would
raise IndexError; that state is unreachable under the session invariant, and
the model then appends.) -/
def push_history (s : Session) : Session :=
  if s.suspend_history then s
  else
    let st : HistoryState := ⟨s.base_idx, s.params⟩
    if pyGet s.history s.hist_idx = some st then s
    else
      let kept := if s.hist_idx < (s.history.length : ℤ) - 1
                  then pySliceTo s.history (s.hist_idx + 1) else s.history
      let hist := kept ++ [st]
      { s with history := hist, hist_idx := (hist.length : ℤ) - 1 }

/-- `_restore_history` (src/frontend/operation.py lines 962-999):
bounds-checked; moves the cursor and restores the stored base index and the
full parameter record.  The slider/check refreshes it performs re-assign the
same values, and its `finally` clause leaves `_suspend_history` False. -/
def restore_history (s : Session) (idx : ℤ) : Session :=
  if idx < 0 ∨ (s.history.length : ℤ) ≤ idx then s
  else
    let st := (pyGet s.history idx).getD default
    { s with hist_idx := idx, base_idx := st.base_idx, params := st.params,
             suspend_history := false }

/-- `_undo` (src/frontend/operation.py lines 1005-1010). -/
def op_undo (s : Session) : Session :=
  if s.remove_running then s
  else if s.hist_idx ≤ 0 then s
  else restore_history s (s.hist_idx - 1)

/-- `_redo` (src/frontend/operation.py lines 1012-1017). -/
def op_redo (s : Session) : Session :=
  if s.remove_running then s
  else if (s.history.length : ℤ) - 1 ≤ s.hist_idx then s
  else restore_history s (s.hist_idx + 1)

/-- The state established by `OperationWindow.__init__` before any image is
loaded. -/
def initSession : Session :=
  { base_images := [], base_idx := -1, params := {}, history := [], hist_idx := -1,
    suspend_history := false, remove_running := false, remove_cancelled := false,
    remove_preview := Option.none, remove_dirty := false, crop_dirty := false,
    remove_status := "Ready", current_tab := "adjust" }

/-- `set_original_image` (src/frontend/operation.py lines 882-893). -/
def set_original_image (s : Session) (img : Image) : Session :=
  push_history { s with base_images := [img], base_idx := 0, params := {},
                        history := [], hist_idx := -1 }

def loadImage (img : Image) : Session := set_original_image initSession img

/-- `self._base_images[self._base_idx]` (raises when out of range; the
default is never reached under the session invariant). -/
def current_base (s : Session) : Image := (pyGet s.base_images s.base_idx).getD default

/-- `_render_current_preview` (src/frontend/operation.py lines 898-906):
split off the alpha channel, run the pipeline on the color channels with the
crop entry overridden to None, and merge the original alpha back. -/
def renderPreview (cv : CVKernels) (s : Session) : Image :=
  let sp := split_bgra (current_base s)
  merge_bgra (process_image cv sp.1 (s.params.toBackend Option.none)) sp.2

/-- The slider / spin keys of `_make_slider_block`. -/
inductive ParamKey where
  | brightness | sharpness | denoise | red | green | blue
deriving DecidableEq, Repr

def UIParams.setKey (p : UIParams) (k : ParamKey) (v : ℤ) : UIParams :=
  match k with
  | .brightness => { p with brightness := v }
  | .sharpness => { p with sharpness := v }
  | .denoise => { p with denoise := v }
  | .red => { p with red := v }
  | .green => { p with green := v }
  | .blue => { p with blue := v }

/-- `set_value` inside `_make_slider_block` (src/frontend/operation.py lines
1046-1048): update the parameter and re-render; no history push. -/
def op_set_param (s : Session) (k : ParamKey) (v : ℤ) : Session :=
  { s with params := s.params.setKey k v }

/-- Slider release / spin editingFinished / reset click: a `_push_history`
commit boundary. -/
def op_commit_params (s : Session) : Session := push_history s

/-- `_on_preset_clicked` (src/frontend/operation.py lines 1102-1106). -/
def op_preset_click (s : Session) (name : String) : Session :=
  push_history { s with params := { s.params with preset := name, mono := name == "mono" } }

/-- `_on_crop_changed` (src/frontend/operation.py lines 1153-1158). -/
def op_crop_changed (s : Session) (c : CropRect) : Session :=
  { s with params := { s.params with crop := c },
           crop_dirty := s.crop_dirty || c.enabled }

/-- `_on_removebg_start` (src/frontend/operation.py lines 1189-1217): guard
against a run already in flight or no base layer; the rendered preview goes
to the worker thread, whose result comes back through
`op_removebg_finished`. -/
def op_removebg_start (s : Session) : Session :=
  if s.remove_running = true ∨ s.base_idx < 0 then s
  else { s with remove_running := true, remove_cancelled := false,
                remove_preview := Option.none, remove_dirty := false,
                remove_status := "Removing..." }

/-- `_on_removebg_cancel` (src/frontend/operation.py lines 1219-1223). -/
def op_removebg_cancel (s : Session) : Session :=
  if s.remove_running = false then s
  else { s with remove_cancelled := true, remove_status := "Cancelling..." }

/-- `_on_removebg_finished` (src/frontend/operation.py lines 1225-1243);
`r = none` models the defensive `bgra_out is None` branch. -/
def op_removebg_finished (s : Session) (r : Option Image) : Session :=
  let s1 := { s with remove_running := false }
  if s1.remove_cancelled then
    { s1 with remove_cancelled := false, remove_status := "Cancelled" }
  else
    match r with
    | Option.none => { s1 with remove_status := "Failed" }
    | some out => { s1 with remove_preview := some out, remove_dirty := true,
                            remove_status := "Done" }

/-- `_on_removebg_error` (src/frontend/operation.py lines 1245-1253). -/
def op_removebg_error (s : Session) : Session :=
  let s1 := { s with remove_running := false }
  if s1.remove_cancelled then
    { s1 with remove_cancelled := false, remove_status := "Cancelled" }
  else { s1 with remove_status := "Failed" }

/-- `_apply_removebg` (src/frontend/operation.py lines 1255-1269): commit
the held preview as a new base layer, reset the parameters to neutral
(`_reset_params_neutral` ends with `_suspend_history = False`), push a
snapshot.  The source sets the status text after the push; the push does not
read it, so the resulting state is the same. -/
def op_apply_removebg (s : Session) : Session :=
  match s.remove_preview with
  | Option.none => s
  | some out =>
    if s.remove_running then s
    else
      let imgs := s.base_images ++ [out]
      push_history
        { s with base_images := imgs, base_idx := (imgs.length : ℤ) - 1,
                 remove_preview := Option.none, remove_dirty := false,
                 params := {}, suspend_history := false,
                 remove_status := "Applied" }

/-- `_apply_crop` (src/frontend/operation.py lines 1277-1303): render the
current preview, crop its color (and alpha) planes with `apply_crop_local`,
commit the result as a new base layer, clear the crop box (the clear_crop
callback and `_reset_params_neutral` together reset `params` to its
defaults and leave `_suspend_history` False), push a snapshot. -/
def op_apply_crop (cv : CVKernels) (s : Session) : Session :=
  if s.params.crop.enabled = false ∨ s.remove_running = true ∨ s.base_idx < 0 then s
  else
    let sp := split_bgra (renderPreview cv s)
    let cropped :=
      match sp.2 with
      | Option.none => apply_crop_local sp.1 s.params.crop
      | some a => merge_bgra (apply_crop_local sp.1 s.params.crop)
                             (some (crop_plane a s.params.crop))
    let imgs := s.base_images ++ [cropped]
    push_history
      { s with base_images := imgs, base_idx := (imgs.length : ℤ) - 1,
               params := {}, suspend_history := false, crop_dirty := false }

/-- The session operations available between loading one image and loading
the next. -/
inductive Op where
  | setParam (k : ParamKey) (v : ℤ)
  | commitParams
  | presetClick (preset : String)
  | cropChanged (c : CropRect)
  | removebgStart
  | removebgCancel
  | removebgFinished (r : Option Image)
  | removebgError
  | applyRemovebg
  | applyCrop
  | undo
  | redo

def applyOp (cv : CVKernels) (op : Op) (s : Session) : Session :=
  match op with
  | .setParam k v => op_set_param s k v
  | .commitParams => op_commit_params s
  | .presetClick preset => op_preset_click s preset
  | .cropChanged c => op_crop_changed s c
  | .removebgStart => op_removebg_start s
  | .removebgCancel => op_removebg_cancel s
  | .removebgFinished r => op_removebg_finished s r
  | .removebgError => op_removebg_error s
  | .applyRemovebg => op_apply_removebg s
  | .applyCrop => op_apply_crop cv s
  | .undo => op_undo s
  | .redo => op_redo s

def applySeq (cv : CVKernels) (ops : List Op) (s : Session) : Session :=
  ops.foldl (fun t op => applyOp cv op t) s

/-- The session invariant (the conjuncts claimed in C10, strengthened with
the bound on every stored snapshot's base index and with the transient
suspend flag being off, both needed for preservation). -/
def Inv (s : Session) : Prop :=
  s.history ≠ [] ∧ 0 ≤ s.hist_idx ∧ s.hist_idx < (s.history.length : ℤ) ∧
  0 ≤ s.base_idx ∧ s.base_idx < (s.base_images.length : ℤ) ∧
  s.suspend_history = false ∧
  ∀ st ∈ s.history, 0 ≤ st.base_idx ∧ st.base_idx < (s.base_images.length : ℤ)

/-- An image transform that preserves the row-length profile (true of every
OpenCV filter the pipeline uses, stated as a hypothesis where needed). -/
def ShapePres (f : Image → Image) : Prop :=
  ∀ img : Image, (f img).shape = img.shape

/-! ### Concrete data for witnesses and counterexamples -/

/-- A concrete instantiation of the OpenCV parameters (witnesses only; the
theorems hold for every instantiation satisfying their stated hypotheses). -/
def trivialCV : CVKernels where
  gaussianBlurSigma := fun img => img
  gaussianBlurK := fun _ img => img
  medianBlurK := fun _ img => img
  addWeighted := fun a _ _ _ _ => a
  lumaBGR := fun _ _ r => r

/-- A 2 x 2 three-channel test image. -/
def testImg : Image :=
  ⟨[[[10, 20, 30], [40, 50, 60]], [[70, 80, 90], [100, 110, 120]]]⟩

/-- A 4 x 4 single-channel test image. -/
def testImg4 : Image :=
  ⟨[[[1], [2], [3], [4]], [[5], [6], [7], [8]],
    [[9], [10], [11], [12]], [[13], [14], [15], [16]]]⟩

/-- A 1 x 1 four-channel (BGRA) test image. -/
def testBgra : Image := ⟨[[[10, 20, 30, 40]]]⟩

/-- The neutral parameter record of C2: every numeric field 0, preset
"none", crop present but disabled. -/
def neutralParams : BackendParams := { crop := some defaultCrop }

/-- The enabled full-frame crop rect of C8. -/
def fullCrop : CropRect := ⟨true, 0, 0, 1, 1⟩

/-- The enabled rect with normalized x = 1 (C3 counterexample). -/
def edgeCrop : CropRect := ⟨true, 1, 0, 1, 1⟩

/-- The enabled centered half-size rect (C8 counterexample). -/
def halfCrop : CropRect := ⟨true, 1/2, 1/2, 1/2, 1/2⟩

/-- A concrete session right after loading `testImg` (one base layer, one
neutral snapshot). -/
def testSession : Session :=
  { initSession with base_images := [testImg], base_idx := 0,
                     history := [⟨0, {}⟩], hist_idx := 0 }

/-- A concrete session with two snapshots, the cursor on the first, and live
parameters differing from both snapshots. -/
def testSessionMid : Session :=
  { testSession with history := [⟨0, {}⟩, ⟨0, { brightness := 5 }⟩], hist_idx := 0,
                     params := { brightness := 9 } }

/-- A concrete session right after a third commit: three snapshots, cursor
at the last, live state matching the last snapshot. -/
def testSession3 : Session :=
  { testSession with
      history := [⟨0, {}⟩, ⟨0, { brightness := 5 }⟩, ⟨0, { brightness := 7 }⟩],
      hist_idx := 2, params := { brightness := 7 } }

/-! ### Pointwise helper lemmas -/

theorem map_id_of_mem {α : Type} {l : List α} {f : α → α} (h : ∀ x ∈ l, f x = x) :
    l.map f = l := by
  induction l with
  | nil => rfl
  | cons a t ih =>
    simp only [List.map_cons, List.cons.injEq]
    exact ⟨h a (by simp), ih fun x hx => h x (by simp [hx])⟩

theorem mapIdx_id_of_mem {l : List ℕ} {f : ℕ → ℕ → ℕ} (h : ∀ j x, x ∈ l → f j x = x) :
    l.mapIdx f = l := by
  apply List.ext_getElem?
  intro i
  rw [List.getElem?_mapIdx]
  cases hx : l[i]? with
  | none => rfl
  | some v =>
    obtain ⟨hlt, rfl⟩ := List.getElem?_eq_some_iff.mp hx
    simp [h i _ (List.getElem_mem hlt)]

theorem Image.mapPixels_id {img : Image} {f : List ℕ → List ℕ}
    (h : ∀ row ∈ img.pixels, ∀ px ∈ row, f px = px) : img.mapPixels f = img := by
  cases img with
  | mk pixels =>
    unfold Image.mapPixels
    simp only [Image.mk.injEq]
    apply map_id_of_mem
    intro row hrow
    exact map_id_of_mem fun px hpx => h row hrow px hpx

theorem ratFloor_eq_floor (q : ℚ) : Rat.floor q = ⌊q⌋ := by
  rw [Rat.floor_def', Rat.floor_def]

theorem byteSat_coe {x : ℕ} (hx : x ≤ 255) : byteSat (x : ℚ) = x := by
  unfold byteSat
  rw [ratFloor_eq_floor, max_eq_right (by positivity), min_eq_right (by exact_mod_cast hx)]
  simp

theorem brightenPix_zero {x : ℕ} (hx : x ≤ 255) : brightenPix 0 x = x := by
  unfold brightenPix
  rw [ratFloor_eq_floor]
  have h0 : (0:ℚ) ≤ (x:ℚ) / 255 := by positivity
  have h1 : (x:ℚ) / 255 ≤ 1 := by
    rw [div_le_one (by norm_num)]
    exact_mod_cast hx
  rw [show (1 + ((0:ℤ):ℚ) / 100) = 1 by norm_num, mul_one, max_eq_right h0,
      min_eq_right h1, div_mul_cancel₀ _ (by norm_num : (255:ℚ) ≠ 0)]
  simp

theorem apply_brightness_zero {img : Image} (hb : img.Bytes) :
    apply_brightness img 0 = img := by
  have hv : apply_brightness img 0 = img.mapSamples (brightenPix 0) := by
    unfold apply_brightness
    norm_num
  rw [hv]
  unfold Image.mapSamples
  apply Image.mapPixels_id
  intro row hrow px hpx
  apply map_id_of_mem
  intro v hv
  exact brightenPix_zero (hb row hrow px hpx v hv)

theorem apply_sharpness_zero (cv : CVKernels) (img : Image) :
    apply_sharpness cv img 0 = img := by
  unfold apply_sharpness
  norm_num

theorem apply_blur_zero (cv : CVKernels) (img : Image) : apply_blur cv img 0 = img := by
  unfold apply_blur
  norm_num

theorem apply_noise_reduction_zero (cv : CVKernels) (img : Image) :
    apply_noise_reduction cv img 0 = img := by
  unfold apply_noise_reduction
  norm_num

theorem rgbFactor_zero (j : ℕ) : rgbFactor 0 0 0 j = 1 := by
  unfold rgbFactor
  split_ifs <;> norm_num

theorem apply_rgb_zero {img : Image} (hb : img.Bytes) : apply_rgb img 0 0 0 = img := by
  unfold apply_rgb
  apply Image.mapPixels_id
  intro row hrow px hpx
  apply mapIdx_id_of_mem
  intro j x hx
  rw [rgbFactor_zero, mul_one]
  exact byteSat_coe (hb row hrow px hpx x hx)

/-! ### C1 -/

/-- C1: for every parameter record and input image, the pipeline applies the
channel-balance stage (`apply_rgb`, scaling the red, green and blue channels
by 1 + value/100) exactly when the active preset is one of "none",
"dramatic-warm", "dramatic-cool"; with preset "mono" or "noir" the stage is
skipped, and the stored red/green/blue values have no effect on the rendered
output, whatever their values. -/
theorem c1_channel_balance_iff (cv : CVKernels) (img : Image) (p : BackendParams)
    (r g b : ℤ) :
    (presetUsesRGB p.preset = true →
      process_image cv img p =
        apply_crop (apply_rgb (preRGBStages cv img p) p.red p.green p.blue) p.crop) ∧
    ((p.preset = "mono" ∨ p.preset = "noir") →
      process_image cv img { p with red := r, green := g, blue := b } =
        apply_crop (preRGBStages cv img p) p.crop) := by
  constructor
  · intro h
    simp [process_image, h]
  · intro h
    have hfalse : presetUsesRGB p.preset = false := by
      rcases h with h | h <;> simp [presetUsesRGB, h]
    have hpre : preRGBStages cv img { p with red := r, green := g, blue := b } =
        preRGBStages cv img p := rfl
    simp [process_image, hpre, hfalse]

/-- Witness for C1 at preset "mono" (stage skipped, rgb values irrelevant)
and preset "none" (stage applied). -/
theorem c1_channel_balance_iff_witness :
    process_image trivialCV testImg { preset := "mono", red := 55, green := -3, blue := 9 } =
      apply_crop (preRGBStages trivialCV testImg { preset := "mono" }) Option.none ∧
    process_image trivialCV testImg { preset := "none", red := 7 } =
      apply_crop
        (apply_rgb (preRGBStages trivialCV testImg { preset := "none", red := 7 }) 7 0 0)
        Option.none := by
  constructor
  · exact (c1_channel_balance_iff trivialCV testImg { preset := "mono" } 55 (-3) 9).2
      (Or.inl rfl)
  · exact (c1_channel_balance_iff trivialCV testImg { preset := "none", red := 7 } 0 0 0).1
      rfl

/-! ### C2 -/

/-- C2: rendering any byte-valued image with the neutral parameter record
(brightness = sharpness = denoise = blur = 0, preset "none",
red = green = blue = 0, crop disabled) returns the input unchanged. -/
theorem c2_neutral_render_identity (cv : CVKernels) (img : Image) (hb : img.Bytes) :
    process_image cv img neutralParams = img := by
  have h5 : preRGBStages cv img neutralParams =
      apply_blur cv (apply_noise_reduction cv
        (apply_sharpness cv (apply_brightness img 0) 0) 0) 0 := rfl
  rw [apply_brightness_zero hb, apply_sharpness_zero, apply_noise_reduction_zero,
      apply_blur_zero] at h5
  have h6 : process_image cv img neutralParams =
      apply_crop (apply_rgb (preRGBStages cv img neutralParams) 0 0 0) (some defaultCrop) :=
    rfl
  rw [h6, h5, apply_rgb_zero hb]
  rfl

/-- Witness for C2 on a concrete image. -/
theorem c2_neutral_render_identity_witness :
    testImg.Bytes ∧ process_image trivialCV testImg neutralParams = testImg :=
  ⟨by decide, c2_neutral_render_identity trivialCV testImg (by decide)⟩

/-! ### C4 -/

/-- C4 counterexample: for a 5 x 5 image with padding 10 the computed
seeding rectangle is (10, 10, 1, 1); its offsets lie outside [0,5) x [0,5),
so the rectangle reaches GrabCut out of bounds, against the claim. -/
theorem c4_counterexample :
    removeBgRect 5 5 10 = ⟨10, 10, 1, 1⟩ ∧ ¬ (removeBgRect 5 5 10).InFrame 5 5 := by
  decide

/-- C4 (amended): the seeding rectangle always has width and height at least
1; it lies fully inside [0,W) x [0,H) whenever the padding is nonnegative
and less than half of each dimension (only the size, never the offset, is
clamped by the source). -/
theorem c4_rect_bounds (w h : ℕ) (pad : ℤ) :
    (1 ≤ (removeBgRect w h pad).w ∧ 1 ≤ (removeBgRect w h pad).h) ∧
    (0 ≤ pad → 2 * pad < (w : ℤ) → 2 * pad < (h : ℤ) →
      (removeBgRect w h pad).InFrame w h) := by
  unfold removeBgRect PxRect.InFrame
  dsimp only
  omega

/-- Witness for C4 with a 5 x 5 image and padding 2. -/
theorem c4_rect_bounds_witness :
    (1 ≤ (removeBgRect 5 5 2).w ∧ 1 ≤ (removeBgRect 5 5 2).h) ∧
    (removeBgRect 5 5 2).InFrame 5 5 :=
  ⟨(c4_rect_bounds 5 5 2).1,
   (c4_rect_bounds 5 5 2).2 (by decide) (by decide) (by decide)⟩

/-! ### C3 and C8: the crop operator -/

theorem clip01_nonneg (q : ℚ) : 0 ≤ clip01 q :=
  le_min (by norm_num) (le_max_left 0 q)

theorem clip01_lt_one {q : ℚ} (h : q < 1) : clip01 q < 1 :=
  lt_of_le_of_lt (min_le_right _ _) (max_lt (by norm_num) h)

theorem floorPx_nonneg (q : ℚ) (n : ℕ) : 0 ≤ Rat.floor (clip01 q * n) := by
  rw [ratFloor_eq_floor]
  exact Int.floor_nonneg.mpr (mul_nonneg (clip01_nonneg q) (by positivity))

theorem floorPx_lt {q : ℚ} (n : ℕ) (hn : 1 ≤ n) (h : q < 1) :
    Rat.floor (clip01 q * n) < n := by
  rw [ratFloor_eq_floor, Int.floor_lt]
  push_cast
  have hn' : (0:ℚ) < n := by exact_mod_cast Nat.lt_of_lt_of_le Nat.zero_lt_one hn
  calc clip01 q * n < 1 * n := mul_lt_mul_of_pos_right (clip01_lt_one h) hn'
  _ = n := one_mul _

/-- Bounds of the computed pixel rectangle when the normalized origin lies
strictly inside the frame. -/
theorem cropRectPx_bounds (W H : ℕ) (c : CropRect) (hW : 1 ≤ W) (hH : 1 ≤ H)
    (hx : c.x < 1) (hy : c.y < 1) :
    0 ≤ (cropRectPx W H c).x ∧ 0 ≤ (cropRectPx W H c).y ∧
    1 ≤ (cropRectPx W H c).w ∧ 1 ≤ (cropRectPx W H c).h ∧
    (cropRectPx W H c).x + (cropRectPx W H c).w ≤ (W : ℤ) ∧
    (cropRectPx W H c).y + (cropRectPx W H c).h ≤ (H : ℤ) := by
  have h1 := floorPx_nonneg c.x W
  have h2 := floorPx_nonneg c.y H
  have h3 := floorPx_lt W hW hx
  have h4 := floorPx_lt H hH hy
  unfold cropRectPx
  dsimp only
  omega

/-- Output dimensions of the crop slice: exactly the computed rectangle,
when that rectangle fits inside the frame. -/
theorem cropCore_dims (img : Image) (c : CropRect) (hrect : img.Rectangular)
    (hw1 : 1 ≤ (cropRectPx img.width img.height c).w)
    (hh1 : 1 ≤ (cropRectPx img.width img.height c).h)
    (hin : (cropRectPx img.width img.height c).InFrame img.width img.height) :
    (cropCore img c).height = (cropRectPx img.width img.height c).h.toNat ∧
    (cropCore img c).width = (cropRectPx img.width img.height c).w.toNat := by
  obtain ⟨hx0, hy0, hxw, hyh⟩ := hin
  have hplen : img.pixels.length = img.height := rfl
  have hpix : (cropCore img c).pixels =
      ((img.pixels.drop (cropRectPx img.width img.height c).y.toNat).take
        (cropRectPx img.width img.height c).h.toNat).map
        (fun row => (row.drop (cropRectPx img.width img.height c).x.toNat).take
          (cropRectPx img.width img.height c).w.toNat) := rfl
  set r := cropRectPx img.width img.height c with hr
  constructor
  · show (cropCore img c).pixels.length = r.h.toNat
    rw [hpix, List.length_map, List.length_take, List.length_drop, hplen]
    omega
  · show ((cropCore img c).pixels.headD []).length = r.w.toNat
    rw [hpix]
    have hlen : ((img.pixels.drop r.y.toNat).take r.h.toNat).length = r.h.toNat := by
      rw [List.length_take, List.length_drop, hplen]
      omega
    cases hL : (img.pixels.drop r.y.toNat).take r.h.toNat with
    | nil =>
      rw [hL] at hlen
      exfalso
      simp at hlen
      omega
    | cons a t =>
      have ha : a ∈ img.pixels := by
        have hmem : a ∈ (img.pixels.drop r.y.toNat).take r.h.toNat := by
          rw [hL]; exact List.mem_cons_self a t
        exact List.drop_subset _ _ (List.take_subset _ _ hmem)
      have haw : a.length = img.width := hrect a ha
      simp only [List.map_cons, List.headD_cons]
      rw [List.length_take, List.length_drop, haw]
      omega

/-- C3 (amended): for every rectangular image with W, H ≥ 1 and every
enabled normalized crop rect whose origin satisfies x < 1 and y < 1, the
computed pixel rectangle has width, height ≥ 1 and lies entirely within the
source frame, and the output buffer has exactly those dimensions; a missing
or disabled crop is the identity.  (As claimed for arbitrary normalized
origins, with the top-left "adjusted", the property is false: at x = 1 the
origin is kept and the slice is empty — see the counterexample.) -/
theorem c3_crop_in_frame (img : Image) (c : CropRect) (hrect : img.Rectangular)
    (hW : 1 ≤ img.width) (hH : 1 ≤ img.height)
    (hen : c.enabled = true) (hx : c.x < 1) (hy : c.y < 1) :
    (1 ≤ (cropRectPx img.width img.height c).w ∧
     1 ≤ (cropRectPx img.width img.height c).h ∧
     (cropRectPx img.width img.height c).InFrame img.width img.height) ∧
    ((apply_crop img (some c)).height = (cropRectPx img.width img.height c).h.toNat ∧
     (apply_crop img (some c)).width = (cropRectPx img.width img.height c).w.toNat) ∧
    (∀ i : Image, apply_crop i Option.none = i ∧
      ∀ c' : CropRect, c'.enabled = false → apply_crop i (some c') = i) := by
  obtain ⟨h1, h2, h3, h4, h5, h6⟩ := cropRectPx_bounds img.width img.height c hW hH hx hy
  have hcrop : apply_crop img (some c) = cropCore img c := by
    simp [apply_crop, hen]
  have hdims := cropCore_dims img c hrect h3 h4 ⟨h1, h2, h5, h6⟩
  refine ⟨⟨h3, h4, h1, h2, h5, h6⟩, ⟨?_, ?_⟩, ?_⟩
  · rw [hcrop]; exact hdims.1
  · rw [hcrop]; exact hdims.2
  · intro i
    exact ⟨rfl, fun c' hc' => by simp [apply_crop, hc']⟩

/-- C3 counterexample: the enabled rect with normalized x = 1 on a 2 x 2
image yields an output of width 0 (the claim demands width at least 1). -/
theorem c3_counterexample : ¬ (1 ≤ (apply_crop testImg (some edgeCrop)).width) := by
  have hr : cropRectPx testImg.width testImg.height edgeCrop = ⟨2, 0, 1, 2⟩ := by
    show cropRectPx 2 2 edgeCrop = _
    unfold cropRectPx edgeCrop clip01
    simp only [ratFloor_eq_floor, PxRect.mk.injEq]
    norm_num
  have hc : apply_crop testImg (some edgeCrop) = ⟨[[], []]⟩ := by
    show cropCore testImg edgeCrop = _
    simp only [cropCore]
    rw [hr]
    decide
  rw [hc]
  decide

/-- Witness for C3 with the centered half-size rect on a 2 x 2 image. -/
theorem c3_crop_in_frame_witness :
    (apply_crop testImg (some halfCrop)).height =
      (cropRectPx testImg.width testImg.height halfCrop).h.toNat :=
  ((c3_crop_in_frame testImg halfCrop (by decide) (by decide) (by decide) rfl
      (by norm_num [halfCrop]) (by norm_num [halfCrop])).2.1).1

theorem cropRectPx_full (W H : ℕ) :
    cropRectPx W H fullCrop = ⟨0, 0, max 1 (W : ℤ), max 1 (H : ℤ)⟩ := by
  unfold cropRectPx fullCrop clip01
  have e0 : min (1:ℚ) (max 0 0) = 0 := by norm_num
  have e1 : min (1:ℚ) (max 0 1) = 1 := by norm_num
  dsimp only
  simp only [ratFloor_eq_floor, e0, e1, zero_mul, one_mul, Int.floor_zero,
    Int.floor_natCast, sub_zero]
  simp [min_eq_left]

/-- C8 (amended): applying the crop operator with the enabled full-frame
rect (x = 0, y = 0, w = 1, h = 1) is the identity on every rectangular
image; hence a second application with that rect to the first output is a
no-op.  (For general rects re-application is not a no-op: the normalized
rect is re-interpreted against the new, smaller dimensions — see the
counterexample.) -/
theorem c8_fullframe_identity (img : Image) (hrect : img.Rectangular) :
    apply_crop img (some fullCrop) = img ∧
    apply_crop (apply_crop img (some fullCrop)) (some fullCrop) =
      apply_crop img (some fullCrop) := by
  have hid : apply_crop img (some fullCrop) = img := by
    show cropCore img fullCrop = img
    unfold cropCore
    rw [cropRectPx_full]
    dsimp only
    cases img with
    | mk pixels =>
      simp only [Image.mk.injEq]
      have htN : (max 1 ((Image.mk pixels).height : ℤ)).toNat = max 1 (Image.mk pixels).height := by
        omega
      have hwN : (max 1 ((Image.mk pixels).width : ℤ)).toNat = max 1 (Image.mk pixels).width := by
        omega
      rw [Int.toNat_zero, List.drop_zero, htN]
      have htake : pixels.take (max 1 (Image.mk pixels).height) = pixels :=
        List.take_of_length_le (by
          have : pixels.length = (Image.mk pixels).height := rfl
          omega)
      rw [htake]
      apply map_id_of_mem
      intro row hrow
      rw [List.drop_zero, hwN]
      exact List.take_of_length_le (by
        have := hrect row hrow
        omega)
  exact ⟨hid, by rw [hid, hid]⟩

/-- Witness for C8 on a concrete image. -/
theorem c8_fullframe_identity_witness :
    apply_crop testImg (some fullCrop) = testImg :=
  (c8_fullframe_identity testImg (by decide)).1

/-! ### C5: cancellation of background removal -/

/-- C5: if a cancel request arrives while a background-removal task runs,
then on completion the result is discarded and the session state (base-layer
stack, active base index, parameters, history list, cursor) is exactly what
it was before the task started; the reported status is "Cancelled", distinct
from the "Failed" reported when the computation errors without a cancel. -/
theorem c5_cancel_discards (s0 : Session) (r : Option Image)
    (hrun : s0.remove_running = false) (hbase : 0 ≤ s0.base_idx) :
    (op_removebg_finished (op_removebg_cancel (op_removebg_start s0)) r).base_images =
      s0.base_images ∧
    (op_removebg_finished (op_removebg_cancel (op_removebg_start s0)) r).base_idx =
      s0.base_idx ∧
    (op_removebg_finished (op_removebg_cancel (op_removebg_start s0)) r).params =
      s0.params ∧
    (op_removebg_finished (op_removebg_cancel (op_removebg_start s0)) r).history =
      s0.history ∧
    (op_removebg_finished (op_removebg_cancel (op_removebg_start s0)) r).hist_idx =
      s0.hist_idx ∧
    (op_removebg_finished (op_removebg_cancel (op_removebg_start s0)) r).remove_preview =
      Option.none ∧
    (op_removebg_finished (op_removebg_cancel (op_removebg_start s0)) r).remove_status =
      "Cancelled" ∧
    (∀ t : Session, t.remove_cancelled = false →
      (op_removebg_error t).remove_status = "Failed" ∧
      (op_removebg_finished t Option.none).remove_status = "Failed") ∧
    ("Cancelled" : String) ≠ "Failed" := by
  have h1 : op_removebg_start s0 =
      { s0 with remove_running := true, remove_cancelled := false,
                remove_preview := Option.none, remove_dirty := false,
                remove_status := "Removing..." } := by
    unfold op_removebg_start
    rw [if_neg]
    rw [hrun]
    simp
    omega
  have h3 : op_removebg_finished (op_removebg_cancel (op_removebg_start s0)) r =
      { s0 with remove_running := false, remove_cancelled := false,
                remove_preview := Option.none, remove_dirty := false,
                remove_status := "Cancelled" } := by
    rw [h1]
    rfl
  rw [h3]
  refine ⟨rfl, rfl, rfl, rfl, rfl, rfl, rfl, ?_, by simp⟩
  intro t ht
  constructor
  · unfold op_removebg_error
    simp [ht]
  · unfold op_removebg_finished
    simp [ht]

/-- Witness for C5 on a concrete loaded session. -/
theorem c5_cancel_discards_witness :
    (op_removebg_finished (op_removebg_cancel (op_removebg_start testSession))
        (some testImg)).history = testSession.history ∧
    (op_removebg_finished (op_removebg_cancel (op_removebg_start testSession))
        (some testImg)).remove_status = "Cancelled" := by
  have h := c5_cancel_discards testSession (some testImg) rfl (by decide)
  exact ⟨h.2.2.2.1, h.2.2.2.2.2.2.1⟩

/-! ### C7: history push semantics -/

/-- C7: pushing a snapshot equal to the one at the cursor leaves the
history and cursor unchanged; pushing a non-duplicate snapshot while the
cursor is not at the list's end first discards every snapshot after the
cursor, then appends the new snapshot with the cursor at the new last
index. -/
theorem c7_push_semantics (s : Session) (hsus : s.suspend_history = false)
    (h0 : 0 ≤ s.hist_idx) (h1 : s.hist_idx < (s.history.length : ℤ)) :
    (pyGet s.history s.hist_idx = some ⟨s.base_idx, s.params⟩ →
      push_history s = s) ∧
    (pyGet s.history s.hist_idx ≠ some ⟨s.base_idx, s.params⟩ →
     s.hist_idx < (s.history.length : ℤ) - 1 →
      (push_history s).history =
        s.history.take (s.hist_idx + 1).toNat ++ [⟨s.base_idx, s.params⟩] ∧
      (push_history s).hist_idx = s.hist_idx + 1 ∧
      (push_history s).hist_idx = ((push_history s).history.length : ℤ) - 1) := by
  constructor
  · intro hdup
    unfold push_history
    rw [hsus]
    simp only [Bool.false_eq_true, if_false]
    rw [if_pos hdup]
  · intro hdup hlt
    have hkept : push_history s =
        { s with
          history := s.history.take (s.hist_idx + 1).toNat ++ [⟨s.base_idx, s.params⟩],
          hist_idx :=
            ((s.history.take (s.hist_idx + 1).toNat ++
              [(⟨s.base_idx, s.params⟩ : HistoryState)]).length : ℤ) - 1 } := by
      unfold push_history
      rw [hsus]
      simp only [Bool.false_eq_true, if_false]
      rw [if_neg hdup, if_pos hlt]
      unfold pySliceTo
      rw [if_pos (by omega)]
    rw [hkept]
    have hlen : (s.history.take (s.hist_idx + 1).toNat ++
        [(⟨s.base_idx, s.params⟩ : HistoryState)]).length = (s.hist_idx + 1).toNat + 1 := by
      rw [List.length_append, List.length_take]
      simp
      omega
    refine ⟨rfl, ?_, rfl⟩
    show ((s.history.take (s.hist_idx + 1).toNat ++
        [(⟨s.base_idx, s.params⟩ : HistoryState)]).length : ℤ) - 1 = s.hist_idx + 1
    rw [hlen]
    omega

/-- Witness for C7: a duplicate push is a no-op, and a non-duplicate push
with the cursor at index 0 of a 2-snapshot history truncates and appends. -/
theorem c7_push_semantics_witness :
    push_history testSession = testSession ∧
    (push_history testSessionMid).history =
      [⟨0, {}⟩, ⟨0, { brightness := 9 }⟩] ∧
    (push_history testSessionMid).hist_idx = 1 := by
  refine ⟨(c7_push_semantics testSession rfl (by decide) (by decide)).1 (by decide), ?_⟩
  have h := (c7_push_semantics testSessionMid rfl (by decide) (by decide)).2
    (by decide) (by decide)
  exact ⟨by rw [h.1]; decide, by rw [h.2.1]; decide⟩

/-! ### C6: undo/redo round trip -/

theorem pyGet_nat {α : Type} (l : List α) (k : ℕ) (hk : k < l.length) :
    pyGet l (k : ℤ) = l.get? k := by
  unfold pyGet
  rw [if_pos ⟨Int.natCast_nonneg k, by exact_mod_cast hk⟩]
  simp

theorem restore_history_spec (s : Session) (k : ℕ) (hk : k < s.history.length) :
    restore_history s (k : ℤ) =
      { s with hist_idx := (k : ℤ),
               base_idx := (s.history.getD k default).base_idx,
               params := (s.history.getD k default).params,
               suspend_history := false } := by
  unfold restore_history
  rw [if_neg (by push_cast; omega)]
  rw [pyGet_nat s.history k hk]
  have hg : (s.history.get? k).getD default = s.history.getD k default := by
    rw [List.get?_eq_getElem?, ← List.getD_eq_getElem?_getD]
  rw [hg]

theorem op_undo_spec (s : Session) (m : ℕ) (hrun : s.remove_running = false)
    (hidx : s.hist_idx = (m : ℤ)) (hm : 0 < m) (hmlen : m < s.history.length) :
    op_undo s =
      { s with hist_idx := ((m - 1 : ℕ) : ℤ),
               base_idx := (s.history.getD (m - 1) default).base_idx,
               params := (s.history.getD (m - 1) default).params,
               suspend_history := false } := by
  unfold op_undo
  rw [if_neg (show ¬ (s.remove_running = true) by rw [hrun]; simp)]
  rw [if_neg (show ¬ (s.hist_idx ≤ 0) by rw [hidx]; omega)]
  rw [show s.hist_idx - 1 = ((m - 1 : ℕ) : ℤ) by rw [hidx]; omega]
  exact restore_history_spec s (m - 1) (by omega)

theorem op_redo_spec (s : Session) (m : ℕ) (hrun : s.remove_running = false)
    (hidx : s.hist_idx = (m : ℤ)) (hmlen : m + 1 < s.history.length) :
    op_redo s =
      { s with hist_idx := ((m + 1 : ℕ) : ℤ),
               base_idx := (s.history.getD (m + 1) default).base_idx,
               params := (s.history.getD (m + 1) default).params,
               suspend_history := false } := by
  unfold op_redo
  rw [if_neg (show ¬ (s.remove_running = true) by rw [hrun]; simp)]
  rw [if_neg (show ¬ ((s.history.length : ℤ) - 1 ≤ s.hist_idx) by rw [hidx]; omega)]
  rw [show s.hist_idx + 1 = ((m + 1 : ℕ) : ℤ) by rw [hidx]; omega]
  exact restore_history_spec s (m + 1) (by omega)

theorem op_undo_iter (k : ℕ) : ∀ (s : Session) (m : ℕ),
    s.remove_running = false → s.hist_idx = (m : ℤ) → m < s.history.length →
    k ≤ m → 0 < k →
    op_undo^[k] s =
      { s with hist_idx := ((m - k : ℕ) : ℤ),
               base_idx := (s.history.getD (m - k) default).base_idx,
               params := (s.history.getD (m - k) default).params,
               suspend_history := false } := by
  induction k with
  | zero =>
    intro s m _ _ _ _ hkpos
    exact absurd hkpos (lt_irrefl 0)
  | succ k ih =>
    intro s m hrun hidx hmlen hk hkpos
    rw [Function.iterate_succ_apply]
    rcases Nat.eq_zero_or_pos k with hk0 | hk0
    · subst hk0
      rw [Function.iterate_zero_apply]
      exact op_undo_spec s m hrun hidx (by omega) hmlen
    · rw [op_undo_spec s m hrun hidx (by omega) hmlen]
      set t : Session :=
        { s with hist_idx := ((m - 1 : ℕ) : ℤ),
                 base_idx := (s.history.getD (m - 1) default).base_idx,
                 params := (s.history.getD (m - 1) default).params,
                 suspend_history := false } with ht
      have hmlen' : m - 1 < t.history.length := by
        show m - 1 < s.history.length
        omega
      rw [ih t (m - 1) hrun rfl hmlen' (by omega) hk0]
      rw [show m - 1 - k = m - (k + 1) by omega]

theorem op_redo_iter (k : ℕ) : ∀ (s : Session) (m : ℕ),
    s.remove_running = false → s.hist_idx = (m : ℤ) → m + k < s.history.length →
    0 < k →
    op_redo^[k] s =
      { s with hist_idx := ((m + k : ℕ) : ℤ),
               base_idx := (s.history.getD (m + k) default).base_idx,
               params := (s.history.getD (m + k) default).params,
               suspend_history := false } := by
  induction k with
  | zero =>
    intro s m _ _ _ hkpos
    exact absurd hkpos (lt_irrefl 0)
  | succ k ih =>
    intro s m hrun hidx hmlen hkpos
    rw [Function.iterate_succ_apply]
    rcases Nat.eq_zero_or_pos k with hk0 | hk0
    · subst hk0
      rw [Function.iterate_zero_apply]
      exact op_redo_spec s m hrun hidx (by omega)
    · rw [op_redo_spec s m hrun hidx (by omega)]
      set t : Session :=
        { s with hist_idx := ((m + 1 : ℕ) : ℤ),
                 base_idx := (s.history.getD (m + 1) default).base_idx,
                 params := (s.history.getD (m + 1) default).params,
                 suspend_history := false } with ht
      have hmlen' : m + 1 + k < t.history.length := by
        show m + 1 + k < s.history.length
        omega
      rw [ih t (m + 1) hrun rfl hmlen' hk0]
      rw [show m + 1 + k = m + (k + 1) by omega]

/-- C6: with N committed snapshots, the cursor on the last one and the live
(baseLayerIndex, params) matching it, undoing N-1 times and then redoing
N-1 times restores exactly the (baseLayerIndex, params) pair of the snapshot
the cursor pointed at before undoing; neither undo nor redo pushes or drops
any snapshot (the history list and final cursor are unchanged). -/
theorem c6_undo_redo_roundtrip (s : Session) (hrun : s.remove_running = false)
    (hne : s.history ≠ [])
    (hidx : s.hist_idx = (s.history.length : ℤ) - 1)
    (hcons : s.history.getD (s.history.length - 1) default = ⟨s.base_idx, s.params⟩) :
    (op_redo^[s.history.length - 1] (op_undo^[s.history.length - 1] s)).base_idx =
      s.base_idx ∧
    (op_redo^[s.history.length - 1] (op_undo^[s.history.length - 1] s)).params =
      s.params ∧
    (op_redo^[s.history.length - 1] (op_undo^[s.history.length - 1] s)).history =
      s.history ∧
    (op_redo^[s.history.length - 1] (op_undo^[s.history.length - 1] s)).hist_idx =
      s.hist_idx := by
  rcases Nat.eq_zero_or_pos (s.history.length - 1) with h1 | h1
  · rw [h1]
    simp [Function.iterate_zero_apply]
  · have hlen0 : s.history.length ≠ 0 := by
      intro h
      exact hne (List.length_eq_zero.mp h)
    have hidx' : s.hist_idx = ((s.history.length - 1 : ℕ) : ℤ) := by
      rw [hidx]
      omega
    rw [op_undo_iter (s.history.length - 1) s (s.history.length - 1) hrun hidx'
      (by omega) (by omega) h1]
    rw [show s.history.length - 1 - (s.history.length - 1) = 0 by omega]
    have hred := op_redo_iter (s.history.length - 1)
      ({ s with hist_idx := ((0 : ℕ) : ℤ),
                base_idx := (s.history.getD 0 default).base_idx,
                params := (s.history.getD 0 default).params,
                suspend_history := false }) 0 hrun rfl
      (by show 0 + (s.history.length - 1) < s.history.length; omega) h1
    rw [hred]
    rw [show 0 + (s.history.length - 1) = s.history.length - 1 by omega]
    refine ⟨?_, ?_, rfl, ?_⟩
    · show (s.history.getD (s.history.length - 1) default).base_idx = s.base_idx
      rw [hcons]
    · show (s.history.getD (s.history.length - 1) default).params = s.params
      rw [hcons]
    · show ((s.history.length - 1 : ℕ) : ℤ) = s.hist_idx
      rw [hidx]
      omega

/-- Witness for C6 on a concrete three-snapshot session. -/
theorem c6_undo_redo_roundtrip_witness :
    (op_redo^[2] (op_undo^[2] testSession3)).params = testSession3.params ∧
    (op_redo^[2] (op_undo^[2] testSession3)).history = testSession3.history :=
  ⟨(c6_undo_redo_roundtrip testSession3 rfl (by decide) (by decide) (by decide)).2.1,
   (c6_undo_redo_roundtrip testSession3 rfl (by decide) (by decide) (by decide)).2.2.1⟩

/-! ### C9: live preview shape and alpha preservation -/

theorem shape_mapPixels (f : List ℕ → List ℕ) (img : Image) :
    (img.mapPixels f).shape = img.shape := by
  simp [Image.shape, Image.mapPixels, List.map_map, Function.comp]

theorem shape_mapSamples (f : ℕ → ℕ) (img : Image) :
    (img.mapSamples f).shape = img.shape :=
  shape_mapPixels _ img

theorem shape_brightness (img : Image) (v : ℤ) :
    (apply_brightness img v).shape = img.shape := by
  simp only [apply_brightness]
  split
  · exact shape_mapSamples _ img
  · exact shape_mapSamples _ img

theorem shape_sharpness (cv : CVKernels)
    (hw : ∀ a wa b wb c, (cv.addWeighted a wa b wb c).shape = a.shape)
    (img : Image) (v : ℤ) : (apply_sharpness cv img v).shape = img.shape := by
  simp only [apply_sharpness]
  split
  · rfl
  · split
    · exact hw _ _ _ _ _
    · exact hw _ _ _ _ _

theorem shape_blur (cv : CVKernels) (hk : ∀ k, ShapePres (cv.gaussianBlurK k))
    (img : Image) (v : ℤ) : (apply_blur cv img v).shape = img.shape := by
  unfold apply_blur
  split
  · rfl
  · exact hk _ img

theorem shape_noise_reduction (cv : CVKernels)
    (hk : ∀ k, ShapePres (cv.medianBlurK k)) (img : Image) (v : ℤ) :
    (apply_noise_reduction cv img v).shape = img.shape := by
  unfold apply_noise_reduction
  split
  · rfl
  · exact hk _ img

theorem shape_grayscale (cv : CVKernels) (img : Image) :
    (apply_grayscale cv img).shape = img.shape :=
  shape_mapPixels _ img

theorem shape_preset (cv : CVKernels) (img : Image) (preset : String) :
    (apply_preset cv img preset).shape = img.shape := by
  unfold apply_preset
  split_ifs
  · rw [shape_mapPixels]
    exact shape_mapSamples _ img
  · rw [shape_mapPixels]
    exact shape_mapSamples _ img
  · exact shape_mapPixels _ img
  · rfl

theorem shape_rgb (img : Image) (r g b : ℤ) :
    (apply_rgb img r g b).shape = img.shape :=
  shape_mapPixels _ img

/-- The pipeline with the crop entry overridden to None (as in the live
preview) preserves the row-length profile. -/
theorem shape_process (cv : CVKernels)
    (hg : ShapePres cv.gaussianBlurSigma)
    (hgk : ∀ k, ShapePres (cv.gaussianBlurK k))
    (hm : ∀ k, ShapePres (cv.medianBlurK k))
    (hw : ∀ a wa b wb c, (cv.addWeighted a wa b wb c).shape = a.shape)
    (img : Image) (p : BackendParams) (hcrop : p.crop = Option.none) :
    (process_image cv img p).shape = img.shape := by
  have hpre : (preRGBStages cv img p).shape = img.shape := by
    unfold preRGBStages
    have hchain : (apply_blur cv (apply_noise_reduction cv
        (apply_sharpness cv (apply_brightness img p.brightness) p.sharpness)
        p.denoise) p.blur).shape = img.shape := by
      rw [shape_blur cv hgk, shape_noise_reduction cv hm, shape_sharpness cv hw,
          shape_brightness]
    split
    · split
      · rw [shape_grayscale]
        exact hchain
      · rw [shape_preset]
        exact hchain
    · exact hchain
  unfold process_image
  rw [hcrop]
  show (if presetUsesRGB p.preset = true then
      apply_rgb (preRGBStages cv img p) p.red p.green p.blue
    else preRGBStages cv img p).shape = img.shape
  split
  · rw [shape_rgb]
    exact hpre
  · exact hpre

theorem merge_row_spec (r : List (List ℕ)) (ar : List ℕ) (h : r.length = ar.length) :
    ((r.zip ar).map fun pa => [pa.1.getD 0 0, pa.1.getD 1 0, pa.1.getD 2 0, pa.2]).length
      = r.length ∧
    (((r.zip ar).map fun pa =>
        [pa.1.getD 0 0, pa.1.getD 1 0, pa.1.getD 2 0, pa.2]).map fun px => px.getD 3 0)
      = ar := by
  induction r generalizing ar with
  | nil =>
    cases ar with
    | nil => simp
    | cons av arest => simp at h
  | cons p t ih =>
    cases ar with
    | nil => simp at h
    | cons av arest =>
      have hrec := ih arest (by simpa using h)
      simp only [List.zip_cons_cons, List.map_cons, List.length_cons]
      exact ⟨by rw [hrec.1], by rw [hrec.2]; rfl⟩

theorem merge_shape_alpha (rows : List (List (List ℕ))) (a : List (List ℕ))
    (hs : rows.map List.length = a.map List.length) :
    ((rows.zip a).map fun ra =>
        (ra.1.zip ra.2).map fun pa =>
          [pa.1.getD 0 0, pa.1.getD 1 0, pa.1.getD 2 0, pa.2]).map List.length
      = rows.map List.length ∧
    (((rows.zip a).map fun ra =>
        (ra.1.zip ra.2).map fun pa =>
          [pa.1.getD 0 0, pa.1.getD 1 0, pa.1.getD 2 0, pa.2]).map fun row =>
            row.map fun px => px.getD 3 0)
      = a := by
  induction rows generalizing a with
  | nil =>
    cases a with
    | nil => simp
    | cons av arest => simp at hs
  | cons r t ih =>
    cases a with
    | nil => simp at hs
    | cons ar arest =>
      have hlens : r.length = ar.length ∧ t.map List.length = arest.map List.length := by
        constructor
        · exact (List.cons.injEq _ _ _ _ ▸ hs : _ ∧ _).1
        · exact (List.cons.injEq _ _ _ _ ▸ hs : _ ∧ _).2
      have hrow := merge_row_spec r ar hlens.1
      have hrec := ih arest hlens.2
      simp only [List.zip_cons_cons, List.map_cons]
      exact ⟨by rw [hrow.1, hrec.1], by rw [hrow.2, hrec.2]⟩

/-- Every pixel produced by `merge_bgra` with an alpha plane has exactly 4
channels. -/
theorem merge_channels (bgr : Image) (a : List (List ℕ)) :
    (merge_bgra bgr (some a)).Channels 4 := by
  intro row hrow px hpx
  unfold merge_bgra at hrow
  obtain ⟨ra, _, rfl⟩ := List.mem_map.mp hrow
  obtain ⟨pa, _, rfl⟩ := List.mem_map.mp hpx
  rfl

theorem width_eq_shape_headD (img : Image) : img.width = img.shape.headD 0 := by
  rcases img with ⟨pixels⟩
  cases pixels with
  | nil => rfl
  | cons r t => rfl

theorem height_eq_shape_length (img : Image) : img.height = img.shape.length := by
  rcases img with ⟨pixels⟩
  simp [Image.height, Image.shape]

/-- C9: rendering the live preview from a 4-channel base layer yields a
4-channel buffer of the same height and width whose alpha channel is
byte-identical to the base layer's; only the three color channels pass
through the pipeline, and the crop stage is forced off (crop = None), so the
dimensions never change.  The hypotheses on `cv` state that the OpenCV
filters preserve the row-length profile, which holds of the real library. -/
theorem c9_preview_preserves_alpha (cv : CVKernels)
    (hg : ShapePres cv.gaussianBlurSigma)
    (hgk : ∀ k, ShapePres (cv.gaussianBlurK k))
    (hm : ∀ k, ShapePres (cv.medianBlurK k))
    (hw : ∀ a wa b wb c, (cv.addWeighted a wa b wb c).shape = a.shape)
    (s : Session) (base : Image)
    (hbase : pyGet s.base_images s.base_idx = some base)
    (hch : base.chan = 4) :
    (renderPreview cv s).height = base.height ∧
    (renderPreview cv s).width = base.width ∧
    (renderPreview cv s).Channels 4 ∧
    alphaPlane (renderPreview cv s) = alphaPlane base := by
  have hcur : current_base s = base := by
    unfold current_base
    rw [hbase]
    rfl
  have hsplit : split_bgra base =
      (base.mapPixels fun px => px.take 3, some (alphaPlane base)) := by
    unfold split_bgra
    rw [if_pos hch]
    rfl
  set P := process_image cv (base.mapPixels fun px => px.take 3)
    (s.params.toBackend Option.none) with hP
  have hout : renderPreview cv s = merge_bgra P (some (alphaPlane base)) := by
    unfold renderPreview
    rw [hcur, hsplit]
  have hPshape : P.shape = base.shape := by
    rw [hP, shape_process cv hg hgk hm hw _ _ rfl, shape_mapPixels]
  have halen : (alphaPlane base).map List.length = base.shape := by
    unfold alphaPlane Image.shape
    simp [List.map_map, Function.comp]
  have hs : P.pixels.map List.length = (alphaPlane base).map List.length := by
    rw [halen]
    exact hPshape
  have hmerge := merge_shape_alpha P.pixels (alphaPlane base) hs
  have hmshape : (merge_bgra P (some (alphaPlane base))).shape = base.shape := by
    show ((P.pixels.zip (alphaPlane base)).map fun ra =>
        (ra.1.zip ra.2).map fun pa =>
          [pa.1.getD 0 0, pa.1.getD 1 0, pa.1.getD 2 0, pa.2]).map List.length = _
    rw [hmerge.1]
    exact hPshape
  refine ⟨?_, ?_, ?_, ?_⟩
  · rw [hout, height_eq_shape_length, hmshape, height_eq_shape_length]
  · rw [hout, width_eq_shape_headD, hmshape, width_eq_shape_headD]
  · rw [hout]
    exact merge_channels P (alphaPlane base)
  · rw [hout]
    show ((P.pixels.zip (alphaPlane base)).map fun ra =>
        (ra.1.zip ra.2).map fun pa =>
          [pa.1.getD 0 0, pa.1.getD 1 0, pa.1.getD 2 0, pa.2]).map
          (fun row => row.map fun px => px.getD 3 0) = alphaPlane base
    exact hmerge.2

/-- Witness for C9 on a concrete 1 x 1 BGRA base layer. -/
theorem c9_preview_preserves_alpha_witness :
    (renderPreview trivialCV
      { testSession with base_images := [testBgra] }).Channels 4 ∧
    alphaPlane (renderPreview trivialCV
      { testSession with base_images := [testBgra] }) = alphaPlane testBgra :=
  have h := c9_preview_preserves_alpha trivialCV (fun _ => rfl) (fun _ _ => rfl)
    (fun _ _ => rfl) (fun _ _ _ _ _ => rfl)
    { testSession with base_images := [testBgra] } testBgra (by decide) (by decide)
  ⟨h.2.2.1, h.2.2.2⟩

/-! ### C10: the session invariant -/

theorem push_base_images (s : Session) : (push_history s).base_images = s.base_images := by
  simp only [push_history]
  split
  · rfl
  · split
    · rfl
    · rfl

/-- Structure of a history push: either a no-op, or a truncation of the list
to a sublist of the old history followed by appending the new snapshot. -/
theorem push_structure (s : Session) (hsus : s.suspend_history = false) :
    push_history s = s ∨
    ∃ kept : List HistoryState, (∀ st ∈ kept, st ∈ s.history) ∧
      push_history s =
        { s with
            history := kept ++ [⟨s.base_idx, s.params⟩],
            hist_idx := ((kept ++ [(⟨s.base_idx, s.params⟩ : HistoryState)]).length : ℤ) - 1 } := by
  simp only [push_history]
  rw [if_neg (show ¬ (s.suspend_history = true) by rw [hsus]; simp)]
  by_cases hdup : pyGet s.history s.hist_idx = some ⟨s.base_idx, s.params⟩
  · rw [if_pos hdup]
    exact Or.inl rfl
  · rw [if_neg hdup]
    right
    refine ⟨if s.hist_idx < (s.history.length : ℤ) - 1
            then pySliceTo s.history (s.hist_idx + 1) else s.history, ?_, rfl⟩
    intro st hst
    split at hst
    · unfold pySliceTo at hst
      split at hst
      · exact List.take_subset _ _ hst
      · exact List.take_subset _ _ hst
    · exact hst

theorem push_inv (s : Session) (hsus : s.suspend_history = false)
    (hne : s.history ≠ []) (h0 : 0 ≤ s.hist_idx)
    (h1 : s.hist_idx < (s.history.length : ℤ))
    (hb0 : 0 ≤ s.base_idx) (hb1 : s.base_idx < (s.base_images.length : ℤ))
    (hhist : ∀ st ∈ s.history, 0 ≤ st.base_idx ∧
      st.base_idx < (s.base_images.length : ℤ)) :
    Inv (push_history s) := by
  rcases push_structure s hsus with h | ⟨kept, hsub, h⟩
  · rw [h]
    exact ⟨hne, h0, h1, hb0, hb1, hsus, hhist⟩
  · rw [h]
    have hklen : (kept ++ [(⟨s.base_idx, s.params⟩ : HistoryState)]).length =
        kept.length + 1 := by
      simp
    refine ⟨by simp, ?_, ?_, hb0, hb1, hsus, ?_⟩
    · show (0:ℤ) ≤ ((kept ++ [(⟨s.base_idx, s.params⟩ : HistoryState)]).length : ℤ) - 1
      rw [hklen]
      push_cast
      omega
    · show ((kept ++ [(⟨s.base_idx, s.params⟩ : HistoryState)]).length : ℤ) - 1 <
        ((kept ++ [(⟨s.base_idx, s.params⟩ : HistoryState)]).length : ℤ)
      omega
    · intro st hst
      rw [List.mem_append] at hst
      rcases hst with hst | hst
      · exact hhist st (hsub st hst)
      · rw [List.mem_singleton] at hst
        subst hst
        exact ⟨hb0, hb1⟩

theorem restore_inv (s : Session) (idx : ℤ) (h : Inv s) :
    Inv (restore_history s idx) := by
  obtain ⟨hne, h0, h1, hb0, hb1, hsus, hhist⟩ := h
  simp only [restore_history]
  split
  · exact ⟨hne, h0, h1, hb0, hb1, hsus, hhist⟩
  · rename_i hcond
    push_neg at hcond
    have hmem : (pyGet s.history idx).getD default ∈ s.history := by
      have hpg : pyGet s.history idx = s.history.get? idx.toNat := by
        unfold pyGet
        rw [if_pos ⟨by omega, by omega⟩]
      rw [hpg]
      cases hg : s.history.get? idx.toNat with
      | none =>
        exfalso
        rw [List.get?_eq_none] at hg
        omega
      | some x =>
        have := List.get?_mem hg
        simpa using this

    obtain ⟨hm0, hm1⟩ := hhist _ hmem
    refine ⟨hne, ?_, ?_, hm0, hm1, rfl, hhist⟩
    · show (0:ℤ) ≤ idx
      omega
    · show idx < (s.history.length : ℤ)
      omega

theorem applyOp_growth (cv : CVKernels) (op : Op) (s : Session) :
    (applyOp cv op s).base_images.take s.base_images.length = s.base_images := by
  have htake : s.base_images.take s.base_images.length = s.base_images :=
    List.take_length s.base_images
  cases op with
  | setParam k v => exact htake
  | commitParams =>
    show (push_history s).base_images.take s.base_images.length = s.base_images
    rw [push_base_images]
    exact htake
  | presetClick p =>
    show (push_history _).base_images.take s.base_images.length = s.base_images
    rw [push_base_images]
    exact htake
  | cropChanged c => exact htake
  | removebgStart =>
    simp only [applyOp, op_removebg_start]
    split
    · exact htake
    · exact htake
  | removebgCancel =>
    simp only [applyOp, op_removebg_cancel]
    split
    · exact htake
    · exact htake
  | removebgFinished r =>
    simp only [applyOp, op_removebg_finished]
    split
    · exact htake
    · split
      · exact htake
      · exact htake
  | removebgError =>
    simp only [applyOp, op_removebg_error]
    split
    · exact htake
    · exact htake
  | applyRemovebg =>
    simp only [applyOp, op_apply_removebg]
    split
    · exact htake
    · split
      · exact htake
      · rw [push_base_images]
        show (s.base_images ++ _).take s.base_images.length = s.base_images
        exact List.take_left s.base_images _
  | applyCrop =>
    simp only [applyOp, op_apply_crop]
    split
    · exact htake
    · rw [push_base_images]
      show (s.base_images ++ _).take s.base_images.length = s.base_images
      exact List.take_left s.base_images _
  | undo =>
    simp only [applyOp, op_undo]
    split
    · exact htake
    · split
      · exact htake
      · simp only [restore_history]
        split
        · exact htake
        · exact htake
  | redo =>
    simp only [applyOp, op_redo]
    split
    · exact htake
    · split
      · exact htake
      · simp only [restore_history]
        split
        · exact htake
        · exact htake

theorem applyOp_inv (cv : CVKernels) (op : Op) (s : Session) (h : Inv s) :
    Inv (applyOp cv op s) := by
  obtain ⟨hne, h0, h1, hb0, hb1, hsus, hhist⟩ := h
  cases op with
  | setParam k v => exact ⟨hne, h0, h1, hb0, hb1, hsus, hhist⟩
  | commitParams => exact push_inv s hsus hne h0 h1 hb0 hb1 hhist
  | presetClick p => exact push_inv _ hsus hne h0 h1 hb0 hb1 hhist
  | cropChanged c => exact ⟨hne, h0, h1, hb0, hb1, hsus, hhist⟩
  | removebgStart =>
    simp only [applyOp, op_removebg_start]
    split
    · exact ⟨hne, h0, h1, hb0, hb1, hsus, hhist⟩
    · exact ⟨hne, h0, h1, hb0, hb1, hsus, hhist⟩
  | removebgCancel =>
    simp only [applyOp, op_removebg_cancel]
    split
    · exact ⟨hne, h0, h1, hb0, hb1, hsus, hhist⟩
    · exact ⟨hne, h0, h1, hb0, hb1, hsus, hhist⟩
  | removebgFinished r =>
    simp only [applyOp, op_removebg_finished]
    split
    · exact ⟨hne, h0, h1, hb0, hb1, hsus, hhist⟩
    · split
      · exact ⟨hne, h0, h1, hb0, hb1, hsus, hhist⟩
      · exact ⟨hne, h0, h1, hb0, hb1, hsus, hhist⟩
  | removebgError =>
    simp only [applyOp, op_removebg_error]
    split
    · exact ⟨hne, h0, h1, hb0, hb1, hsus, hhist⟩
    · exact ⟨hne, h0, h1, hb0, hb1, hsus, hhist⟩
  | applyRemovebg =>
    simp only [applyOp, op_apply_removebg]
    split
    · exact ⟨hne, h0, h1, hb0, hb1, hsus, hhist⟩
    · rename_i out heq
      split
      · exact ⟨hne, h0, h1, hb0, hb1, hsus, hhist⟩
      · apply push_inv
        · rfl
        · exact hne
        · exact h0
        · exact h1
        · show (0:ℤ) ≤ ((s.base_images ++ [out]).length : ℤ) - 1
          simp
        · show ((s.base_images ++ [out]).length : ℤ) - 1 <
            ((s.base_images ++ [out]).length : ℤ)
          omega
        · intro st hst
          obtain ⟨hm0, hm1⟩ := hhist st hst
          refine ⟨hm0, ?_⟩
          show st.base_idx < ((s.base_images ++ [out]).length : ℤ)
          rw [List.length_append]
          push_cast
          omega
  | applyCrop =>
    simp only [applyOp, op_apply_crop]
    split
    · exact ⟨hne, h0, h1, hb0, hb1, hsus, hhist⟩
    · apply push_inv
      · rfl
      · exact hne
      · exact h0
      · exact h1
      · show (0:ℤ) ≤ ((s.base_images ++ _).length : ℤ) - 1
        simp
      · show ((s.base_images ++ _).length : ℤ) - 1 < ((s.base_images ++ _).length : ℤ)
        omega
      · intro st hst
        obtain ⟨hm0, hm1⟩ := hhist st hst
        refine ⟨hm0, ?_⟩
        show st.base_idx < ((s.base_images ++ _).length : ℤ)
        rw [List.length_append]
        push_cast
        omega
  | undo =>
    simp only [applyOp, op_undo]
    split
    · exact ⟨hne, h0, h1, hb0, hb1, hsus, hhist⟩
    · split
      · exact ⟨hne, h0, h1, hb0, hb1, hsus, hhist⟩
      · exact restore_inv s _ ⟨hne, h0, h1, hb0, hb1, hsus, hhist⟩
  | redo =>
    simp only [applyOp, op_redo]
    split
    · exact ⟨hne, h0, h1, hb0, hb1, hsus, hhist⟩
    · split
      · exact ⟨hne, h0, h1, hb0, hb1, hsus, hhist⟩
      · exact restore_inv s _ ⟨hne, h0, h1, hb0, hb1, hsus, hhist⟩

theorem loadImage_inv (img : Image) : Inv (loadImage img) := by
  have hload : loadImage img =
      { base_images := [img], base_idx := 0, params := {},
        history := [⟨0, {}⟩], hist_idx := 0,
        suspend_history := false, remove_running := false, remove_cancelled := false,
        remove_preview := Option.none, remove_dirty := false, crop_dirty := false,
        remove_status := "Ready", current_tab := "adjust" } := rfl
  rw [hload]
  unfold Inv
  refine ⟨by simp, by norm_num, by norm_num, by norm_num, by norm_num, rfl, ?_⟩
  intro st hst
  rw [List.mem_singleton] at hst
  subst hst
  exact ⟨by norm_num, by norm_num⟩

theorem applySeq_inv (cv : CVKernels) (ops : List Op) (s : Session) (h : Inv s) :
    Inv (applySeq cv ops s) := by
  induction ops generalizing s with
  | nil => exact h
  | cons op rest ih =>
    show Inv (applySeq cv rest (applyOp cv op s))
    exact ih _ (applyOp_inv cv op s h)

/-- C10: from the moment an image is loaded, every sequence of session
operations (parameter changes, commit boundaries, preset clicks, crop-box
changes, crop apply, background-removal start/cancel/finish/error/apply,
undo, redo) preserves the invariant — the history list is non-empty with the
cursor in [0, length-1] and the active base index in
[0, number of base layers - 1] — and each operation only grows the
base-layer list: the existing base layers remain, unchanged, a prefix of the
new list (buffers are immutable values in the model, so none is mutated). -/
theorem c10_session_invariant (cv : CVKernels) (img : Image) (ops : List Op) (op : Op) :
    ((applySeq cv ops (loadImage img)).history ≠ [] ∧
     0 ≤ (applySeq cv ops (loadImage img)).hist_idx ∧
     (applySeq cv ops (loadImage img)).hist_idx <
       ((applySeq cv ops (loadImage img)).history.length : ℤ) ∧
     0 ≤ (applySeq cv ops (loadImage img)).base_idx ∧
     (applySeq cv ops (loadImage img)).base_idx <
       ((applySeq cv ops (loadImage img)).base_images.length : ℤ)) ∧
    (applyOp cv op (applySeq cv ops (loadImage img))).base_images.take
        (applySeq cv ops (loadImage img)).base_images.length =
      (applySeq cv ops (loadImage img)).base_images := by
  obtain ⟨a, b, c, d, e, _, _⟩ := applySeq_inv cv ops (loadImage img) (loadImage_inv img)
  exact ⟨⟨a, b, c, d, e⟩, applyOp_growth cv op _⟩

/-- C8 counterexample: applying the crop operator twice with the same
centered half-size rect is not a no-op — the second application re-crops the
already-cropped 2 x 2 output down to 1 x 1. -/
theorem c8_counterexample :
    apply_crop (apply_crop testImg4 (some halfCrop)) (some halfCrop) ≠
      apply_crop testImg4 (some halfCrop) := by
  have hr1 : cropRectPx testImg4.width testImg4.height halfCrop = ⟨2, 2, 2, 2⟩ := by
    show cropRectPx 4 4 halfCrop = _
    unfold cropRectPx halfCrop clip01
    simp only [ratFloor_eq_floor, PxRect.mk.injEq]
    norm_num
  have h1 : apply_crop testImg4 (some halfCrop) = ⟨[[[11], [12]], [[15], [16]]]⟩ := by
    show cropCore testImg4 halfCrop = _
    simp only [cropCore]
    rw [hr1]
    decide
  have hr2 : cropRectPx (Image.mk [[[11], [12]], [[15], [16]]]).width
      (Image.mk [[[11], [12]], [[15], [16]]]).height halfCrop = ⟨1, 1, 1, 1⟩ := by
    show cropRectPx 2 2 halfCrop = _
    unfold cropRectPx halfCrop clip01
    simp only [ratFloor_eq_floor, PxRect.mk.injEq]
    norm_num
  have h2 : apply_crop (⟨[[[11], [12]], [[15], [16]]]⟩ : Image) (some halfCrop) =
      ⟨[[[16]]]⟩ := by
    show cropCore (⟨[[[11], [12]], [[15], [16]]]⟩ : Image) halfCrop = _
    simp only [cropCore]
    rw [hr2]
    decide
  rw [h1, h2]
  decide

end Valo
